import Mathlib

/-!
Verification development for the `events` library (`src/Events.h`):
a typed in-process event-dispatch core with per-event-type servers,
busy-interface serialization, and a cancel handshake.

The C++ source is embedded shallowly:

* Atomic read-modify-write operations (`fetch_add`, `fetch_sub`,
  `compare_exchange`) become pure functions from the observed value to
  (result, new value); the successful CAS iteration of
  `Request::start_handling` is one atomic step.
* The concurrent core (`Server::trigger` repeated mode,
  `RequestWithBI::handle`, `Request::cancel`, the busy interface) is
  embedded as an executable small-step interpreter over a system state
  with an explicit program counter per thread; a schedule is a list of
  labels.  Mutex-protected regions that the source executes without any
  intervening shared access (`std::lock_guard` around a single deque
  operation) are single atomic steps.
* Machine integers: the packed handle count is an `Int` (the C++ `int`
  never approaches its bounds in the states considered); the busy depth
  (`std::atomic_uint`) wraps modulo 2^32, made explicit where it matters.
* Fallible behaviour (debug assertions) is modelled with `Option`:
  `none` is an assertion failure.
-/

namespace events

/-- `Request<TYPE>::s_cancel_marker = 0x10000` (Events.h line 154). -/
def s_cancel_marker : Int := 65536

/-! ## Request::start_handling (Events.h lines 189-200)

```cpp
int start_handling()
{
  int handle_count = m_handle_count;
  do
  {
    if (AI_UNLIKELY(handle_count < 0))
      return (handle_count == -s_cancel_marker) ? -1 : 1;
  }
  while (!m_handle_count.compare_exchange_weak(handle_count, handle_count + 1));
  return 0;
}
```

Embedded as one atomic step on the finally-observed value of
`m_handle_count`: the return code together with the new value of the
counter. -/

/-- Result code `-1` of `start_handling`: canceled and no thread handling. -/
def REAP : Int := -1

/-- Result code `1` of `start_handling`: canceled but still being handled. -/
def SKIP : Int := 1

/-- Result code `0` of `start_handling`: not canceled; count incremented. -/
def OK : Int := 0

/-- `Request::start_handling` as a function of the observed counter value:
returns (result code, new counter value). -/
def start_handling (c : Int) : Int × Int :=
  if c < 0 then
    (if c = -s_cancel_marker then REAP else SKIP, c)
  else
    (OK, c + 1)

/-! ## Request::stop_handling (Events.h lines 205-215)

```cpp
void stop_handling()
{
  if (AI_UNLIKELY(m_handle_count.fetch_sub(1) == 1 - s_cancel_marker))
  {
    m_cancel_mutex.lock();
    m_cancel_mutex.unlock();
    m_cancel_cv.notify_one();
  }
}
```

`fetch_sub` returns the pre-decrement value; the lock/unlock of the
cancel mutex and the `notify_one` happen exactly when that value equals
`1 - s_cancel_marker`. -/

/-- Observable outcome of one `stop_handling` call entered with counter
value `c`. -/
structure StopResult where
  newCount : Int
  touchedCancelMutex : Bool
  signaledCv : Bool
  deriving DecidableEq

/-- `Request::stop_handling` as a function of the observed counter value. -/
def stop_handling (c : Int) : StopResult :=
  if c = 1 - s_cancel_marker then
    ⟨c - 1, true, true⟩
  else
    ⟨c - 1, false, false⟩

/-! ## BusyInterface (Events.h lines 117-146)

```cpp
std::atomic_uint m_busy_depth;
bool set_busy() { return m_busy_depth.fetch_add(1) == 0; }
bool unset_busy() { return m_busy_depth.fetch_sub(1) == 1; }
void push(QueuedEventBase const* e) { lock_guard ...; m_events.push_back(e); }
QueuedEventBase const* pop() { lock_guard ...; front + pop_front or nullptr; }
```

The depth is a 32-bit unsigned counter; `fetch_sub` at 0 wraps.
Debug assertions are modelled as `none`; the source of `unset_busy`
contains no assertion, so the function is total (always `some`). -/

/-- 2^32, the modulus of `std::atomic_uint`. -/
def u32 : Nat := 4294967296

namespace BusyInterface

/-- `BusyInterface::set_busy`: (new depth, result).  Result is true iff the
pre-increment depth was 0. -/
def set_busy (d : Nat) : Nat × Bool :=
  ((d + 1) % u32, d == 0)

/-- `BusyInterface::unset_busy`: (new depth, result) wrapped in `Option`
(a `none` would be a debug assertion failure; the source has none, so the
function always returns `some`).  Result is true iff the pre-decrement
depth was 1; decrementing at depth 0 wraps to 2^32 - 1. -/
def unset_busy (d : Nat) : Option (Nat × Bool) :=
  some ((d + (u32 - 1)) % u32, d == 1)

/-- `BusyInterface::push`: appends at the back of the deque
(`m_events.push_back`). -/
def push (q : List α) (e : α) : List α :=
  q ++ [e]

/-- `BusyInterface::pop`: removes and returns the front element, or `none`
when the deque is empty. -/
def pop (q : List α) : Option α × List α :=
  match q with
  | [] => (none, [])
  | e :: rest => (some e, rest)

end BusyInterface

/-- The race-recovery branch of the drain loop in
`RequestWithBI::handle` (Events.h lines 510-527): the drainer pops the
front event; when its subsequent `set_busy()` fails the event is handed
back to the queue with `m_busy_interface->push(queued_event)`.  This
function returns the queue as it stands after that branch (or `none`
when the queue was empty so the branch cannot run). -/
def drainRacePushback (q : List α) : Option (List α) :=
  match BusyInterface.pop q with
  | (none, _) => none
  | (some e, rest) => some (BusyInterface.push rest e)

/-! ## RequestHandle (Events.h lines 264-281)

```cpp
RequestHandle() : m_request(nullptr) { }
~RequestHandle() { ASSERT(!m_request || m_request->is_canceled()); }
RequestHandle& operator=(RequestHandle&& orig)
{ m_request = orig.m_request; orig.m_request = nullptr; return *this; }
```

A request is abstracted to its identity and its canceled flag; the
move-assignment operator is two plain pointer assignments, calling
nothing, so its effect log is empty. -/

/-- Abstraction of a `Request<TYPE>` as seen through a handle. -/
structure MReq where
  id : Nat
  canceled : Bool
  deriving DecidableEq

/-- `RequestHandle<TYPE>`: a raw request pointer or null. -/
structure RequestHandle where
  m_request : Option MReq
  deriving DecidableEq

/-- Everything observable about one execution of
`RequestHandle::operator=(RequestHandle&&)`: the two resulting handles,
the list of requests on which `cancel()` was called, and whether any
debug assertion fired. -/
structure MoveAssignEffects where
  dst : RequestHandle
  src : RequestHandle
  cancelCalls : List Nat
  assertionFired : Bool
  deriving DecidableEq

/-- `RequestHandle::operator=(RequestHandle&&)` (Events.h line 276):
`m_request = orig.m_request; orig.m_request = nullptr;` — no cancel, no
assertion. -/
def moveAssign : RequestHandle → RequestHandle → MoveAssignEffects :=
  fun _dst src => ⟨⟨src.m_request⟩, ⟨none⟩, [], false⟩

/-- Whether the assertion in `~RequestHandle` (Events.h line 273),
`ASSERT(!m_request || m_request->is_canceled())`, fires (fails) for a
handle in the given state.  The unused `dst` parameter of `moveAssign`
is deliberately absent here: the destructor looks only at the handle it
runs on. -/
def destructorAssertionFires (h : RequestHandle) : Bool :=
  match h.m_request with
  | none => false
  | some r => !r.canceled

/-! ## Server::trigger, one-shot branch (Events.h lines 421-446)

```cpp
Request<TYPE>* head;
{ lock_guard ...; head = m_request_list; m_request_list = nullptr; }
Request<TYPE>* request = head;
while (request) { request->handle(data); request = request->m_next; }
request = head;
while (request) { next = request->m_next; m_request_memory_pool.free(request); request = next; }
```

Sequential once the list is detached (the source itself notes no lock is
needed after the detach).  `handle` is called on every detached node
unconditionally — the branch never consults the handle count, so
cancellation does not matter.  A call of `handle` is logged as a pair
(request id, event data). -/

/-- A request as the one-shot trigger branch sees it: an identity and a
canceled flag (which the branch never reads). -/
structure OSReq where
  id : Nat
  canceled : Bool
  deriving DecidableEq

/-- A one-shot server: the request list and the ids already freed to the
memory pool. -/
structure OSServer where
  requestList : List OSReq
  pool : List Nat
  deriving DecidableEq

/-- The one-shot branch of `Server::trigger`: detach the list, call
`handle(data)` on each detached node in list order, then free every node
to the pool.  Returns the new server state and the log of `handle`
calls. -/
def triggerOneShot (s : OSServer) (d : Nat) : OSServer × List (Nat × Nat) :=
  let head := s.requestList
  let calls := head.map fun r => (r.id, d)
  (⟨[], s.pool ++ head.map OSReq.id⟩, calls)

/-! ## Server::trigger, repeated branch, single-walker projection
(Events.h lines 447-490)

Used for the delivery-completeness statement about one trigger: the walk
of the request list by one trigger with the handle-count of every node
fixed at its value when the walker's `start_handling` examines it.
Per node the walker does exactly what the inner `while` decides:
`REAP` (count = -s_cancel_marker): delink and free; `SKIP` (count < 0
otherwise): leave linked, advance; else `OK`: `start_handling`
increments, `handle(data)` is called exactly once, `stop_handling`
decrements back. -/

/-- A request node of the repeated walk: identity and the packed count
observed when the walker reaches it. -/
structure RReq where
  id : Nat
  count : Int
  deriving DecidableEq

/-- Single-walker projection of the repeated branch of `Server::trigger`:
returns the surviving request list and the log of `handle` calls
(request id, event data), in walk order. -/
def walkRepeated (d : Nat) : List RReq → List RReq × List (Nat × Nat)
  | [] => ([], [])
  | r :: rest =>
    if r.count < 0 then
      if r.count = -s_cancel_marker then
        walkRepeated d rest
      else
        (r :: (walkRepeated d rest).1, (walkRepeated d rest).2)
    else
      (r :: (walkRepeated d rest).1, (r.id, d) :: (walkRepeated d rest).2)

/-! ## The concurrent core as a small-step interpreter

Threads interleave at the granularity of the shared-memory accesses of
`Server::trigger` (repeated mode, Events.h lines 447-490),
`RequestWithBI::handle` (lines 493-530), `QueuedEvent::rehandle`
(lines 532-536) and `Request::cancel` (lines 538-548), all against one
`BusyInterface` shared by every request (each request is a
`RequestWithBI` naming that interface).

Modelling notes, each tied to the source:

* `start_handling` runs under the list mutex in the walker but races
  with `cancel`/`stop_handling`, which take no list mutex; it is one
  atomic step on the current count (the successful CAS iteration).
* The walker's pointer-to-pointer cursor `next` is modelled by the
  identity of the node whose `m_next` field it addresses (`none` for the
  head pointer `&m_request_list`): after `delink` the cursor stays and
  re-reads, after `SKIP` or after `stop_handling` it moves to the node
  just examined.  Node identity (not a list index) is what survives
  concurrent delinks of other nodes, exactly as the address `&m_next`
  does in the source.
* `push`/`pop` on the busy interface hold `m_events_mutex` around a
  single deque operation and touch nothing else, so each is one step;
  `set_busy`/`unset_busy` are single atomic RMWs.
* Running a callback is a state (program counter `hCb` for the direct
  call at line 505, `hRehandle` for `queued_event->rehandle()` at line
  516); the step out of it is the callback returning.
* `cancel`'s `fetch_sub` is one step; its conditional wait is a step
  enabled only when `m_handle_count == -s_cancel_marker` (the
  condition-variable predicate at line 546).  The canceller at `cDone`
  has returned from `cancel()`.
* The ghost field `log` records every callback invocation
  (request id, event data); it corresponds to no shared memory.
* `m_request_memory_pool.free` is the `freed` flag of a request;
  freeing a `QueuedEvent` to its pool is not tracked. -/

/-- Per-thread program counters of the concurrent core.  The payload
`d` is the event data of the trigger the thread executes, `r` the id of
the request currently being handled, `cur` the walker cursor, and
`(qr, qd)` a popped queued event. -/
inductive TPC where
  | idle
  | tLock (d : Nat)
  | tScan (d : Nat) (cur : Option Nat)
  | tStartOk (d r : Nat)
  | hSetBusy (d r : Nat)
  | hCb (d r : Nat)
  | hPush (d r : Nat)
  | hUnset (d r : Nat)
  | hPop (d r : Nat)
  | hTrySet (d r qr qd : Nat)
  | hRehandle (d r qr qd : Nat)
  | hPushBack (d r qr qd : Nat)
  | tRelock (d r : Nat)
  | tStop (d r : Nat)
  | cCancel (r : Nat)
  | cWait (r : Nat)
  | cDone (r : Nat)
  deriving DecidableEq

/-- The shared state of one `Request` object: its packed
`m_handle_count` and whether it has been freed to the server's pool. -/
structure ReqState where
  count : Int
  freed : Bool
  deriving DecidableEq

/-- The whole shared state: the requests (indexed by id), the server's
`m_request_list` (as the list of linked ids), the holder of
`m_request_list_mutex`, the busy interface (`m_busy_depth`, `m_events`),
the thread program counters, and the ghost invocation log. -/
structure SysState where
  reqs : List ReqState
  reqList : List Nat
  lockOwner : Option Nat
  depth : Nat
  queue : List (Nat × Nat)
  threads : List TPC
  log : List (Nat × Nat)
  deriving DecidableEq

/-- What a scheduled thread does next: continue its current operation, or
(from `idle`) begin a trigger with data `d`, begin a cancel of request
`r`, or register a new request (`Server::request` + `push_front`). -/
inductive Act where
  | go
  | trig (d : Nat)
  | canc (r : Nat)
  | reg
  deriving DecidableEq

/-- A schedule entry: which thread moves, and what it does. -/
abbrev Label := Nat × Act

/-- The id of the node linked after the cursor position: the value the
walker reads as `*next` (Events.h line 457).  `none` cursor is the head
pointer; cursor `some r` is the field `&r->m_next`. -/
def nextAfter (l : List Nat) : Option Nat → Option Nat
  | none => l.head?
  | some r => go l r
where
  /-- Scan for `r` and return the id linked after it. -/
  go : List Nat → Nat → Option Nat
    | [], _ => none
    | a :: rest, r => if a = r then rest.head? else go rest r

/-- One interpreter step: thread `i`, currently at `pc`, performs `a`.
`none` means the action is impossible now (bad action, or a mutex
acquisition that would block). -/
def stepThread (s : SysState) (i : Nat) (pc : TPC) (a : Act) : Option SysState :=
  match pc, a with
  | .idle, .trig d =>
    -- Server::trigger entered (repeated mode): about to lock the list mutex.
    some { s with threads := s.threads.set i (.tLock d) }
  | .idle, .canc r =>
    -- Request::cancel entered.
    some { s with threads := s.threads.set i (.cCancel r) }
  | .idle, .reg =>
    -- Server::request + push_front: allocate a fresh request, link it at
    -- the head under the list mutex (one step: the lock_guard scope).
    match s.lockOwner with
    | none => some { s with reqs := s.reqs ++ [⟨0, false⟩],
                            reqList := s.reqs.length :: s.reqList }
    | some _ => none
  | .tLock d, .go =>
    match s.lockOwner with
    | none => some { s with lockOwner := some i,
                            threads := s.threads.set i (.tScan d none) }
    | some _ => none
  | .tScan d cur, .go =>
    -- One iteration of the scan `while ((request = *next) && (state = start_handling()))`,
    -- or the `if (!request) break;` fall-through that unlocks and returns.
    if s.lockOwner = some i then
      match nextAfter s.reqList cur with
      | none => some { s with lockOwner := none, threads := s.threads.set i .idle }
      | some q =>
        match s.reqs.get? q with
        | none => none
        | some st =>
          if st.count < 0 then
            if st.count = -s_cancel_marker then
              -- REAP: delink(*next); free to pool; cursor stays.
              some { s with reqList := s.reqList.erase q,
                            reqs := s.reqs.set q { st with freed := true } }
            else
              -- SKIP: next = &request->m_next.
              some { s with threads := s.threads.set i (.tScan d (some q)) }
          else
            -- OK: the CAS succeeds, count incremented.
            some { s with reqs := s.reqs.set q { st with count := st.count + 1 },
                          threads := s.threads.set i (.tStartOk d q) }
    else none
  | .tStartOk d r, .go =>
    -- lock.unlock(); about to call request->handle(data).
    if s.lockOwner = some i then
      some { s with lockOwner := none, threads := s.threads.set i (.hSetBusy d r) }
    else none
  | .hSetBusy d r, .go =>
    -- RequestWithBI::handle: m_busy_interface->set_busy().
    if s.depth = 0 then
      some { s with depth := 1, threads := s.threads.set i (.hCb d r),
                    log := s.log ++ [(r, d)] }
    else
      some { s with depth := s.depth + 1, threads := s.threads.set i (.hPush d r) }
  | .hCb d r, .go =>
    -- this->m_callback(data) returns.
    some { s with threads := s.threads.set i (.hUnset d r) }
  | .hPush d r, .go =>
    -- new QueuedEvent(this, data); m_busy_interface->push(...): push_back.
    some { s with queue := s.queue ++ [(r, d)], threads := s.threads.set i (.hUnset d r) }
  | .hUnset d r, .go =>
    -- while (m_busy_interface->unset_busy()): fetch_sub, true iff old == 1.
    if s.depth = 1 then
      some { s with depth := 0, threads := s.threads.set i (.hPop d r) }
    else
      some { s with depth := s.depth - 1, threads := s.threads.set i (.tRelock d r) }
  | .hPop d r, .go =>
    -- queued_event = m_busy_interface->pop(); if (!queued_event) break.
    match s.queue with
    | [] => some { s with threads := s.threads.set i (.tRelock d r) }
    | (qr, qd) :: rest =>
      some { s with queue := rest, threads := s.threads.set i (.hTrySet d r qr qd) }
  | .hTrySet d r qr qd, .go =>
    -- if (m_busy_interface->set_busy()) ...
    if s.depth = 0 then
      some { s with depth := 1, threads := s.threads.set i (.hRehandle d r qr qd),
                    log := s.log ++ [(qr, qd)] }
    else
      some { s with depth := s.depth + 1, threads := s.threads.set i (.hPushBack d r qr qd) }
  | .hRehandle d r _qr _qd, .go =>
    -- queued_event->rehandle() returns (m_request->m_callback(m_data));
    -- delete queued_event; back to the while condition.
    some { s with threads := s.threads.set i (.hUnset d r) }
  | .hPushBack d r qr qd, .go =>
    -- else m_busy_interface->push(queued_event); back to the while condition.
    some { s with queue := s.queue ++ [(qr, qd)], threads := s.threads.set i (.hUnset d r) }
  | .tRelock d r, .go =>
    -- handle returned; lock.lock().
    match s.lockOwner with
    | none => some { s with lockOwner := some i, threads := s.threads.set i (.tStop d r) }
    | some _ => none
  | .tStop d r, .go =>
    -- request->stop_handling(); next = &request->m_next.
    if s.lockOwner = some i then
      match s.reqs.get? r with
      | none => none
      | some st =>
        some { s with reqs := s.reqs.set r { st with count := st.count - 1 },
                      threads := s.threads.set i (.tScan d (some r)) }
    else none
  | .cCancel r, .go =>
    -- Request::cancel: m_handle_count.fetch_sub(s_cancel_marker) > 0 ?
    match s.reqs.get? r with
    | none => none
    | some st =>
      if st.count > 0 then
        some { s with reqs := s.reqs.set r { st with count := st.count - s_cancel_marker },
                      threads := s.threads.set i (.cWait r) }
      else
        some { s with reqs := s.reqs.set r { st with count := st.count - s_cancel_marker },
                      threads := s.threads.set i (.cDone r) }
  | .cWait r, .go =>
    -- m_cancel_cv.wait(lock, [this]{ return m_handle_count == -s_cancel_marker; })
    match s.reqs.get? r with
    | none => none
    | some st =>
      if st.count = -s_cancel_marker then
        some { s with threads := s.threads.set i (.cDone r) }
      else none
  | _, _ => none

/-- Run a schedule from a state. -/
def run (s : SysState) : List Label → Option SysState
  | [] => some s
  | (i, a) :: ls =>
    match s.threads.get? i with
    | none => none
    | some pc =>
      match stepThread s i pc a with
      | none => none
      | some s₂ => run s₂ ls

/-- Initial state used by the theorems: two requests already registered
on one server, both carrying the same busy interface — request 0 was
registered first, request 1 second, so the list reads `[1, 0]`
(`push_front`) — and `n` idle threads. -/
def initState (n : Nat) : SysState :=
  { reqs := [⟨0, false⟩, ⟨0, false⟩]
    reqList := [1, 0]
    lockOwner := none
    depth := 0
    queue := []
    threads := List.replicate n .idle
    log := [] }

/-! ## Invariant machinery for mutual exclusion (claim about
`RequestWithBI::handle`, Events.h lines 493-530)

A thread's *contribution* is the number of unmatched `fetch_add(1)` it
has performed on `m_busy_depth` (0 or 1 at every program point of
`handle`).  A thread holds the *token* when its last `fetch_add`
observed 0 (its `set_busy()` returned true): exactly the program points
where a callback is executing. -/

/-- The number of unmatched increments of `m_busy_depth` held by a
thread at this program counter. -/
def contrib : TPC → Nat
  | .hCb _ _ | .hPush _ _ | .hUnset _ _ | .hRehandle _ _ _ _ | .hPushBack _ _ _ _ => 1
  | _ => 0

/-- Whether a thread at this program counter is currently executing a
callback against the busy interface: the direct call
`this->m_callback(data)` (line 505) or `queued_event->rehandle()`
(line 516). -/
def isToken : TPC → Bool
  | .hCb _ _ | .hRehandle _ _ _ _ => true
  | _ => false

/-- `isToken` as a weight. -/
def tokenWeight (pc : TPC) : Nat :=
  if isToken pc then 1 else 0

/-- Total busy-depth contribution of all threads. -/
def sumContrib (l : List TPC) : Nat :=
  (l.map contrib).sum

/-- The number of threads currently executing a callback against the
busy interface. -/
def tokenCount (l : List TPC) : Nat :=
  l.countP isToken

/-- The inductive invariant: the busy depth equals the total thread
contribution, and at most one thread executes a callback. -/
def Inv (s : SysState) : Prop :=
  s.depth = sumContrib s.threads ∧ tokenCount s.threads ≤ 1

/-! ## Concrete schedules used by the theorems -/

/-- `n` consecutive steps of thread `i`. -/
def gos (i n : Nat) : List Label :=
  List.replicate n (i, Act.go)

/-- Schedule: thread 0 triggers data 10 and enters request 1's callback
directly; thread 1 triggers data 11, finds the interface busy, queues
events for request 1 and request 0 and finishes its walk (calling
`stop_handling` on both); thread 2 then cancels request 0 — the handler
count is 0, so `cancel()` returns at once; thread 0 finally drains the
queue and rehandles request 0's queued event. -/
def c1sched : List Label :=
  [(0, .trig 10)] ++ gos 0 4 ++
  [(1, .trig 11)] ++ gos 1 16 ++
  [(2, .canc 0)] ++ gos 2 1 ++
  gos 0 8

/-- Schedule: as `c1sched` up to the cancel, but then thread 3 triggers
data 12 while thread 0 is still inside request 1's callback: its walk
queues an event for request 1, then finds request 0 at
`-s_cancel_marker`, delinks it and frees it to the pool — with request
0's queued event still in the busy interface's queue. -/
def c3sched : List Label :=
  [(0, .trig 10)] ++ gos 0 4 ++
  [(1, .trig 11)] ++ gos 1 16 ++
  [(2, .canc 0)] ++ gos 2 1 ++
  [(3, .trig 12)] ++ gos 3 9

/-- Schedule prefix: thread 0 enters `trigger(7)` and acquires the list
mutex; request 0 is not yet cancelled. -/
def c8a : List Label :=
  [(0, .trig 7), (0, .go)]

/-- Schedule suffix: thread 1 cancels request 0 (immediately, handler
count 0), then thread 0's walk runs to completion: it handles request 1,
reaps request 0, and returns. -/
def c8b : List Label :=
  [(1, .canc 0), (1, .go)] ++ gos 0 10

/-- Schedule: one thread triggers data 5 and reaches request 1's direct
callback. -/
def c2sched : List Label :=
  [(0, .trig 5)] ++ gos 0 4

/-! # Theorems -/

/-! ## Helper lemmas -/

theorem sumContrib_nil : sumContrib [] = 0 := rfl

theorem sumContrib_cons (a : TPC) (l : List TPC) :
    sumContrib (a :: l) = contrib a + sumContrib l := by
  simp [sumContrib]

theorem tokenCount_nil : tokenCount [] = 0 := rfl

theorem tokenCount_cons (a : TPC) (l : List TPC) :
    tokenCount (a :: l) = tokenCount l + tokenWeight a := by
  simp [tokenCount, tokenWeight, List.countP_cons]

theorem sumContrib_set {l : List TPC} {i : Nat} {pc : TPC}
    (h : l.get? i = some pc) (pc₂ : TPC) :
    sumContrib (l.set i pc₂) + contrib pc = sumContrib l + contrib pc₂ := by
  induction l generalizing i with
  | nil => simp at h
  | cons a t ih =>
    cases i with
    | zero =>
      simp only [List.get?_cons_zero, Option.some.injEq] at h
      subst h
      simp only [List.set_cons_zero, sumContrib_cons]
      omega
    | succ n =>
      simp only [List.get?_cons_succ] at h
      have := ih h
      simp only [List.set_cons_succ, sumContrib_cons]
      omega

theorem tokenCount_set {l : List TPC} {i : Nat} {pc : TPC}
    (h : l.get? i = some pc) (pc₂ : TPC) :
    tokenCount (l.set i pc₂) + tokenWeight pc = tokenCount l + tokenWeight pc₂ := by
  induction l generalizing i with
  | nil => simp at h
  | cons a t ih =>
    cases i with
    | zero =>
      simp only [List.get?_cons_zero, Option.some.injEq] at h
      subst h
      simp only [List.set_cons_zero, tokenCount_cons]
      omega
    | succ n =>
      simp only [List.get?_cons_succ] at h
      have := ih h
      simp only [List.set_cons_succ, tokenCount_cons]
      omega

theorem tokenWeight_le_contrib (pc : TPC) : tokenWeight pc ≤ contrib pc := by
  cases pc <;> simp [tokenWeight, isToken, contrib]

theorem tokenWeight_le_one (pc : TPC) : tokenWeight pc ≤ 1 := by
  cases pc <;> simp [tokenWeight, isToken]

theorem tokenCount_le_sumContrib (l : List TPC) : tokenCount l ≤ sumContrib l := by
  induction l with
  | nil => simp [tokenCount_nil, sumContrib_nil]
  | cons a t ih =>
    have := tokenWeight_le_contrib a
    simp only [tokenCount_cons, sumContrib_cons]
    omega

theorem tokenCount_eq_zero {l : List TPC} (h : sumContrib l = 0) :
    tokenCount l = 0 := by
  have := tokenCount_le_sumContrib l
  omega

theorem pair_count_cons (y x : Nat × Nat) (l : List (Nat × Nat)) :
    (y :: l).count x = l.count x + (if y = x then 1 else 0) := by
  simp [List.count_cons, beq_iff_eq]

theorem count_pairs_eq_zero (d i : Nat) (l : List OSReq)
    (h : i ∉ l.map OSReq.id) :
    (l.map fun q => (q.id, d)).count (i, d) = 0 := by
  induction l with
  | nil => rfl
  | cons a t ih =>
    simp only [List.map_cons, List.mem_cons, not_or] at h
    simp only [List.map_cons, pair_count_cons, ih h.2]
    have hne : ¬ ((a.id, d) = (i, d)) := by
      simp only [Prod.mk.injEq]
      exact fun hc => h.1 hc.1.symm
    rw [if_neg hne]

theorem count_pairs_eq_one (d : Nat) (l : List OSReq) (r : OSReq)
    (hnodup : (l.map OSReq.id).Nodup) (hmem : r ∈ l) :
    (l.map fun q => (q.id, d)).count (r.id, d) = 1 := by
  induction l with
  | nil => simp at hmem
  | cons a t ih =>
    simp only [List.map_cons, List.nodup_cons] at hnodup
    rcases List.mem_cons.mp hmem with h | h
    · subst h
      simp only [List.map_cons, pair_count_cons,
        count_pairs_eq_zero d r.id t hnodup.1]
      simp
    · have hne : a.id ≠ r.id := by
        intro he
        exact hnodup.1 (he ▸ List.mem_map_of_mem OSReq.id h)
      simp only [List.map_cons, pair_count_cons, ih hnodup.2 h]
      have hne₂ : ¬ ((a.id, d) = (r.id, d)) := by
        simp only [Prod.mk.injEq]
        exact fun hc => hne hc.1
      rw [if_neg hne₂]

theorem contrib_le_sumContrib {l : List TPC} {i : Nat} {pc : TPC}
    (h : l.get? i = some pc) : contrib pc ≤ sumContrib l := by
  induction l generalizing i with
  | nil => simp at h
  | cons a t ih =>
    cases i with
    | zero =>
      simp only [List.get?_cons_zero, Option.some.injEq] at h
      subst h
      simp only [sumContrib_cons]
      omega
    | succ n =>
      simp only [List.get?_cons_succ] at h
      have := ih h
      simp only [sumContrib_cons]
      omega

/-- The one-step update lemma behind the mutual-exclusion invariant:
a step moves thread `i` from `pc` to `pc₂`, changes the busy depth by
the difference of their contributions, and either does not create a
token or fires from an observed depth of 0. -/
theorem inv_update {s s₂ : SysState} {i : Nat} {pc : TPC} (pc₂ : TPC)
    (hget : s.threads.get? i = some pc)
    (hthr : s₂.threads = s.threads.set i pc₂)
    (hdep : s₂.depth + contrib pc = s.depth + contrib pc₂)
    (htok : tokenWeight pc₂ ≤ tokenWeight pc ∨ s.depth = 0)
    (hI : Inv s) : Inv s₂ := by
  obtain ⟨h1, h2⟩ := hI
  have hs := sumContrib_set hget pc₂
  have ht := tokenCount_set hget pc₂
  constructor
  · rw [hthr]
    omega
  · rw [hthr]
    rcases htok with h | h
    · omega
    · have h0 : sumContrib s.threads = 0 := by omega
      have hz := tokenCount_eq_zero h0
      have hw := tokenWeight_le_one pc₂
      omega

/-- Every interpreter step preserves the invariant. -/
theorem stepThread_inv {s s₂ : SysState} {i : Nat} {pc : TPC} {a : Act}
    (hget : s.threads.get? i = some pc)
    (hstep : stepThread s i pc a = some s₂) (hI : Inv s) : Inv s₂ := by
  cases a with
  | trig d =>
    cases pc
    all_goals try exact Option.noConfusion hstep
    simp only [stepThread] at hstep
    cases hstep
    exact inv_update _ hget rfl (by simp [contrib])
      (Or.inl (by simp [tokenWeight, isToken])) hI
  | canc r =>
    cases pc
    all_goals try exact Option.noConfusion hstep
    simp only [stepThread] at hstep
    cases hstep
    exact inv_update _ hget rfl (by simp [contrib])
      (Or.inl (by simp [tokenWeight, isToken])) hI
  | reg =>
    cases pc
    all_goals try exact Option.noConfusion hstep
    simp only [stepThread] at hstep
    split at hstep
    · cases hstep
      exact hI
    · exact Option.noConfusion hstep
  | go =>
    cases pc with
    | idle => exact Option.noConfusion hstep
    | tLock d =>
      simp only [stepThread] at hstep
      split at hstep
      · cases hstep
        exact inv_update _ hget rfl (by simp [contrib])
          (Or.inl (by simp [tokenWeight, isToken])) hI
      · exact Option.noConfusion hstep
    | tScan d cur =>
      simp only [stepThread] at hstep
      split at hstep
      · split at hstep
        · cases hstep
          exact inv_update _ hget rfl (by simp [contrib])
            (Or.inl (by simp [tokenWeight, isToken])) hI
        · split at hstep
          · exact Option.noConfusion hstep
          · split at hstep
            · split at hstep
              · cases hstep
                exact hI
              · cases hstep
                exact inv_update _ hget rfl (by simp [contrib])
                  (Or.inl (by simp [tokenWeight, isToken])) hI
            · cases hstep
              exact inv_update _ hget rfl (by simp [contrib])
                (Or.inl (by simp [tokenWeight, isToken])) hI
      · exact Option.noConfusion hstep
    | tStartOk d r =>
      simp only [stepThread] at hstep
      split at hstep
      · cases hstep
        exact inv_update _ hget rfl (by simp [contrib])
          (Or.inl (by simp [tokenWeight, isToken])) hI
      · exact Option.noConfusion hstep
    | hSetBusy d r =>
      simp only [stepThread] at hstep
      split at hstep
      · rename_i h
        cases hstep
        exact inv_update _ hget rfl (by simp only [contrib]; omega) (Or.inr h) hI
      · cases hstep
        exact inv_update _ hget rfl (by simp [contrib])
          (Or.inl (by simp [tokenWeight, isToken])) hI
    | hCb d r =>
      simp only [stepThread] at hstep
      cases hstep
      exact inv_update _ hget rfl (by simp [contrib])
        (Or.inl (by simp [tokenWeight, isToken])) hI
    | hPush d r =>
      simp only [stepThread] at hstep
      cases hstep
      exact inv_update _ hget rfl (by simp [contrib])
        (Or.inl (by simp [tokenWeight, isToken])) hI
    | hUnset d r =>
      have hge := contrib_le_sumContrib hget
      simp only [contrib] at hge
      have h1 := hI.1
      simp only [stepThread] at hstep
      split at hstep
      · rename_i h
        cases hstep
        exact inv_update _ hget rfl (by simp only [contrib]; omega)
          (Or.inl (by simp [tokenWeight, isToken])) hI
      · rename_i h
        cases hstep
        exact inv_update _ hget rfl (by simp only [contrib]; omega)
          (Or.inl (by simp [tokenWeight, isToken])) hI
    | hPop d r =>
      simp only [stepThread] at hstep
      split at hstep
      · cases hstep
        exact inv_update _ hget rfl (by simp [contrib])
          (Or.inl (by simp [tokenWeight, isToken])) hI
      · cases hstep
        exact inv_update _ hget rfl (by simp [contrib])
          (Or.inl (by simp [tokenWeight, isToken])) hI
    | hTrySet d r qr qd =>
      simp only [stepThread] at hstep
      split at hstep
      · rename_i h
        cases hstep
        exact inv_update _ hget rfl (by simp only [contrib]; omega) (Or.inr h) hI
      · cases hstep
        exact inv_update _ hget rfl (by simp [contrib])
          (Or.inl (by simp [tokenWeight, isToken])) hI
    | hRehandle d r qr qd =>
      simp only [stepThread] at hstep
      cases hstep
      exact inv_update _ hget rfl (by simp [contrib])
        (Or.inl (by simp [tokenWeight, isToken])) hI
    | hPushBack d r qr qd =>
      simp only [stepThread] at hstep
      cases hstep
      exact inv_update _ hget rfl (by simp [contrib])
        (Or.inl (by simp [tokenWeight, isToken])) hI
    | tRelock d r =>
      simp only [stepThread] at hstep
      split at hstep
      · cases hstep
        exact inv_update _ hget rfl (by simp [contrib])
          (Or.inl (by simp [tokenWeight, isToken])) hI
      · exact Option.noConfusion hstep
    | tStop d r =>
      simp only [stepThread] at hstep
      split at hstep
      · split at hstep
        · exact Option.noConfusion hstep
        · cases hstep
          exact inv_update _ hget rfl (by simp [contrib])
            (Or.inl (by simp [tokenWeight, isToken])) hI
      · exact Option.noConfusion hstep
    | cCancel r =>
      simp only [stepThread] at hstep
      split at hstep
      · exact Option.noConfusion hstep
      · split at hstep
        · cases hstep
          exact inv_update _ hget rfl (by simp [contrib])
            (Or.inl (by simp [tokenWeight, isToken])) hI
        · cases hstep
          exact inv_update _ hget rfl (by simp [contrib])
            (Or.inl (by simp [tokenWeight, isToken])) hI
    | cWait r =>
      simp only [stepThread] at hstep
      split at hstep
      · exact Option.noConfusion hstep
      · split at hstep
        · cases hstep
          exact inv_update _ hget rfl (by simp [contrib])
            (Or.inl (by simp [tokenWeight, isToken])) hI
        · exact Option.noConfusion hstep
    | cDone r => exact Option.noConfusion hstep

/-- Running any schedule preserves the invariant. -/
theorem run_inv (ls : List Label) (s s₂ : SysState)
    (hI : Inv s) (h : run s ls = some s₂) : Inv s₂ := by
  induction ls generalizing s with
  | nil =>
    simp only [run] at h
    cases h
    exact hI
  | cons la rest ih =>
    obtain ⟨i, a⟩ := la
    simp only [run] at h
    split at h
    · exact Option.noConfusion h
    · rename_i pc hget
      split at h
      · exact Option.noConfusion h
      · rename_i s₃ hstep
        exact ih s₃ (stepThread_inv hget hstep hI) h

theorem sumContrib_replicate (n : Nat) :
    sumContrib (List.replicate n .idle) = 0 := by
  induction n with
  | zero => rfl
  | succ k ih => simp [List.replicate_succ, sumContrib_cons, ih, contrib]

theorem tokenCount_replicate (n : Nat) :
    tokenCount (List.replicate n .idle) = 0 := by
  induction n with
  | zero => rfl
  | succ k ih =>
    simp [List.replicate_succ, tokenCount_cons, ih, tokenWeight, isToken]

theorem Inv_initState (n : Nat) : Inv (initState n) := by
  constructor
  · simp [initState, sumContrib_replicate]
  · simp [initState, tokenCount_replicate]

/-! ## Claim C2 -/

/-- Claim C2: for every schedule of any number of threads interleaving
triggers, cancels and registrations against the shared busy interface,
every reachable state has at most one thread executing a callback
(directly in `handle` or via `rehandle`) for the requests referencing
that busy interface. -/
theorem C2_busy_interface_mutual_exclusion (n : Nat) (ls : List Label)
    (s : SysState) (h : run (initState n) ls = some s) :
    tokenCount s.threads ≤ 1 :=
  (run_inv ls (initState n) s (Inv_initState n) h).2

/-- Witness for C2: the schedule `c2sched` runs one thread into request
1's direct callback; the bound holds in the resulting state. -/
theorem C2_busy_interface_mutual_exclusion_witness :
    run (initState 1) c2sched
      = some ((run (initState 1) c2sched).getD (initState 1)) ∧
    tokenCount ((run (initState 1) c2sched).getD (initState 1)).threads ≤ 1 :=
  ⟨by decide, C2_busy_interface_mutual_exclusion 1 c2sched _ (by decide)⟩

/-! ## Claim C6 -/

/-- Claim C6: `Request::start_handling` returns `REAP` exactly when the
packed state equals `-s_cancel_marker` (cancelled, no active handlers),
returns `SKIP` exactly when the state is negative but not equal to
`-s_cancel_marker` (cancelled with handlers still active), and otherwise
atomically increments the state by one and returns `OK`; the handler
count is never incremented on a cancelled request. -/
theorem C6_start_handling_contract (c : Int) :
    ((start_handling c).1 = REAP ↔ c = -s_cancel_marker) ∧
    ((start_handling c).1 = SKIP ↔ c < 0 ∧ c ≠ -s_cancel_marker) ∧
    (0 ≤ c → (start_handling c).1 = OK ∧ (start_handling c).2 = c + 1) ∧
    (c < 0 → (start_handling c).2 = c) := by
  unfold start_handling REAP SKIP OK s_cancel_marker
  split_ifs with h1 h2
  all_goals simp_all
  all_goals omega

/-- Witness for C6 at the concrete state 0 (not cancelled). -/
theorem C6_start_handling_contract_witness :
    (0:Int) ≤ 0 ∧ ((start_handling 0).1 = OK ∧ (start_handling 0).2 = 0 + 1) :=
  ⟨by decide, (C6_start_handling_contract 0).2.2.1 (by decide)⟩

/-! ## Claim C7 -/

/-- Claim C7: `Request::stop_handling` atomically decrements the state by
one, and exactly when the decrementing `fetch_sub` produces the value
`1 - s_cancel_marker` (the request was cancelled and this was the last
handler; equivalently the decrement lands on `-s_cancel_marker`) it
locks then immediately unlocks the cancel mutex and signals the cancel
condition variable; in every other case it neither touches the cancel
mutex nor signals. -/
theorem C7_stop_handling_wake_condition (c : Int) :
    (stop_handling c).newCount = c - 1 ∧
    ((stop_handling c).signaledCv = true ↔ c = 1 - s_cancel_marker) ∧
    (stop_handling c).touchedCancelMutex = (stop_handling c).signaledCv ∧
    (c = 1 - s_cancel_marker ↔ (stop_handling c).newCount = -s_cancel_marker) := by
  unfold stop_handling s_cancel_marker
  split_ifs with h
  all_goals simp_all
  all_goals omega

/-! ## Claim C9 -/

/-- Claim C9 counterexample: `BusyInterface::unset_busy` called at busy
depth 0 does not fail a debug assertion (the source contains none); the
call returns normally. -/
theorem C9_unset_busy_counterexample :
    ¬ BusyInterface.unset_busy 0 = none := by
  decide

/-- Claim C9 (amended): calling `unset_busy` at busy depth 0 triggers no
assertion; the unsigned depth wraps to 2^32 - 1 and the call returns
false. -/
theorem C9_unset_busy_amended :
    BusyInterface.unset_busy 0 = some (4294967295, false) := by
  decide

/-! ## Claim C10 -/

/-- Claim C10: `RequestHandle`'s move-assignment operator unconditionally
overwrites the destination's request pointer; when the destination still
references a live, uncancelled request that reference is discarded with
no `cancel()` call and no assertion at assignment time — although the
handle destructor's assertion would fire on such a handle. -/
theorem C10_move_assign_discards_live_request (dst src : RequestHandle) (r : MReq)
    (hdst : dst.m_request = some r) (hlive : r.canceled = false) :
    (moveAssign dst src).dst.m_request = src.m_request ∧
    (moveAssign dst src).src.m_request = none ∧
    (moveAssign dst src).cancelCalls = [] ∧
    (moveAssign dst src).assertionFired = false ∧
    destructorAssertionFires dst = true := by
  simp [moveAssign, destructorAssertionFires, hdst, hlive]

/-- Witness for C10: a handle holding live request 0, overwritten by an
empty handle. -/
theorem C10_move_assign_discards_live_request_witness :
    (RequestHandle.mk (some ⟨0, false⟩)).m_request = some ⟨0, false⟩ ∧
    (MReq.mk 0 false).canceled = false ∧
    ((moveAssign ⟨some ⟨0, false⟩⟩ ⟨none⟩).dst.m_request
        = (RequestHandle.mk none).m_request ∧
      (moveAssign ⟨some ⟨0, false⟩⟩ ⟨none⟩).src.m_request = none ∧
      (moveAssign ⟨some ⟨0, false⟩⟩ ⟨none⟩).cancelCalls = [] ∧
      (moveAssign ⟨some ⟨0, false⟩⟩ ⟨none⟩).assertionFired = false ∧
      destructorAssertionFires ⟨some ⟨0, false⟩⟩ = true) :=
  ⟨rfl, rfl,
    C10_move_assign_discards_live_request ⟨some ⟨0, false⟩⟩ ⟨none⟩ ⟨0, false⟩ rfl rfl⟩

/-! ## Claim C4 -/

/-- Claim C4 (code is wrong): with queue `[e1, e2]` a draining thread pops
`e1`; when its `set_busy()` fails the source hands the event back with
`m_busy_interface->push(queued_event)` (Events.h line 526), and `push`
appends (`m_events.push_back`, line 132), so the queue becomes
`[e2, e1]` — not `[e1, e2]` as the claim (and the source's own comment
at lines 524-525) state; the racing thread will deliver `e2` first. -/
theorem C4_race_pushback_goes_to_back :
    drainRacePushback [1, 2] = some [2, 1] ∧
    ¬ drainRacePushback [1, 2] = some [1, 2] := by
  decide

/-! ## Claim C5 -/

/-- Claim C5: for a one-shot event type, `Server::trigger` detaches the
whole request list, calls `handle(event)` on each detached node exactly
once, then frees every detached node to the pool; every request
registered before the detach is invoked exactly once regardless of
cancellation, and a subsequent trigger invokes none of them. -/
theorem C5_one_shot_trigger (s : OSServer) (d d₂ : Nat) (r : OSReq)
    (hnodup : (s.requestList.map OSReq.id).Nodup) (hmem : r ∈ s.requestList) :
    (triggerOneShot s d).2.count (r.id, d) = 1 ∧
    (triggerOneShot s d).1.requestList = [] ∧
    r.id ∈ (triggerOneShot s d).1.pool ∧
    (triggerOneShot (triggerOneShot s d).1 d₂).2 = [] := by
  refine ⟨?_, rfl, ?_, rfl⟩
  · exact count_pairs_eq_one d s.requestList r hnodup hmem
  · simp only [triggerOneShot, List.mem_append]
    exact Or.inr (List.mem_map_of_mem OSReq.id hmem)

/-! ## Claim C8 -/

/-- Claim C8 counterexample: on a repeated-mode server, request 0 is
registered before the trigger and is still uncancelled at the moment the
trigger acquires the list mutex, yet the trigger completes with request
0's callback never invoked and nothing queued: the cancel lands between
the mutex acquisition and the walker's `start_handling` on request 0
(which then returns `-1` and reaps the node). -/
theorem C8_counterexample :
    (initState 2).reqList.contains 0 = true ∧
    ((run (initState 2) c8a).map fun s =>
        decide (s.lockOwner = some 0) &&
        decide (s.reqs.get? 0 = some ⟨0, false⟩)) = some true ∧
    ((run (initState 2) (c8a ++ c8b)).map fun s =>
        decide (s.threads.get? 0 = some .idle) &&
        decide (s.log.count (0, 7) = 0) &&
        decide (s.queue = [])) = some true := by
  decide

theorem walk_count_eq_zero (d i : Nat) (l : List RReq)
    (h : i ∉ l.map RReq.id) :
    (walkRepeated d l).2.count (i, d) = 0 := by
  induction l with
  | nil => rfl
  | cons a t ih =>
    simp only [List.map_cons, List.mem_cons, not_or] at h
    simp only [walkRepeated]
    split_ifs with h1 h2
    · exact ih h.2
    · exact ih h.2
    · have hne : ¬ ((a.id, d) = (i, d)) := by
        simp only [Prod.mk.injEq]
        exact fun hc => h.1 hc.1.symm
      rw [pair_count_cons, ih h.2, if_neg hne]

/-- Claim C8 (amended): for a trigger with data `d` on a repeated-mode
server, every request that is linked in the list and whose packed state
is still uncancelled (nonnegative) at the moment the walker's
`start_handling` examines it has `handle` called on it exactly once
during that trigger's walk. -/
theorem C8_repeated_delivery_amended (d : Nat) (l : List RReq) (r : RReq)
    (hnodup : (l.map RReq.id).Nodup) (hmem : r ∈ l) (hlive : 0 ≤ r.count) :
    (walkRepeated d l).2.count (r.id, d) = 1 := by
  induction l with
  | nil => simp at hmem
  | cons a t ih =>
    simp only [List.map_cons, List.nodup_cons] at hnodup
    rcases List.mem_cons.mp hmem with h | h
    · subst h
      simp only [walkRepeated]
      rw [if_neg (by omega)]
      rw [pair_count_cons, walk_count_eq_zero d r.id t hnodup.1]
      simp
    · have hne : a.id ≠ r.id := by
        intro he
        exact hnodup.1 (he ▸ List.mem_map_of_mem RReq.id h)
      have hne₂ : ¬ ((a.id, d) = (r.id, d)) := by
        simp only [Prod.mk.injEq]
        exact fun hc => hne hc.1
      simp only [walkRepeated]
      split_ifs with h1 h2
      · exact ih hnodup.2 h
      · exact ih hnodup.2 h
      · rw [pair_count_cons, ih hnodup.2 h, if_neg hne₂]

/-- Witness for the amended C8: list `[request 1 (count 0), request 0
(count 1 - s_cancel_marker, i.e. cancelled with a handler active)]`; the
live request 1 is delivered exactly once. -/
theorem C8_repeated_delivery_amended_witness :
    ((([⟨1, 0⟩, ⟨0, 1 - s_cancel_marker⟩] : List RReq).map RReq.id).Nodup ∧
      (RReq.mk 1 0) ∈ ([⟨1, 0⟩, ⟨0, 1 - s_cancel_marker⟩] : List RReq) ∧
      (0:Int) ≤ (RReq.mk 1 0).count) ∧
    (walkRepeated 7 [⟨1, 0⟩, ⟨0, 1 - s_cancel_marker⟩]).2.count (1, 7) = 1 :=
  ⟨⟨by decide, by decide, by decide⟩,
    C8_repeated_delivery_amended 7 [⟨1, 0⟩, ⟨0, 1 - s_cancel_marker⟩] ⟨1, 0⟩
      (by decide) (by decide) (by decide)⟩

/-! ## Claim C1 -/

/-- Claim C1 (code is wrong): a reachable state of the concurrent core in
which `cancel()` for request 0 has returned (thread 2 is at `cDone 0`)
while request 0's callback is currently executing via the rehandle of a
queued event (thread 0 at `hRehandle` with queued request 0): a
`QueuedEvent` carries no handler count, so once the enqueuing trigger has
called `stop_handling`, the canceller's wait does not cover the pending
rehandle. -/
theorem C1_callback_runs_after_cancel_returns :
    ((run (initState 3) c1sched).map fun s =>
        decide (s.threads.get? 2 = some (.cDone 0)) &&
        s.threads.any fun pc =>
          match pc with
          | .hRehandle _ _ qr _ => qr == 0
          | _ => false) = some true := by
  decide

/-! ## Claim C3 -/

/-- Claim C3 (code is wrong): a reachable state of the concurrent core in
which the busy interface's queue still holds a `QueuedEvent` for request
0 while request 0 has already been delinked and freed to the server's
pool: the queued event's `m_request` is a raw pointer
(Events.h line 294), not an owning reference, and nothing keeps the
request alive. -/
theorem C3_queued_event_points_to_freed_request :
    ((run (initState 4) c3sched).map fun s =>
        (s.queue.any fun e => e.1 == 0) &&
        ((s.reqs.get? 0).map ReqState.freed).getD false) = some true := by
  decide

/-- Witness for C5: a server with a cancelled request (id 0) and a live
one (id 1); the cancelled one is still invoked exactly once. -/
theorem C5_one_shot_trigger_witness :
    ((([⟨0, true⟩, ⟨1, false⟩] : List OSReq).map OSReq.id).Nodup ∧
      (OSReq.mk 0 true) ∈ ([⟨0, true⟩, ⟨1, false⟩] : List OSReq)) ∧
    ((triggerOneShot ⟨[⟨0, true⟩, ⟨1, false⟩], []⟩ 5).2.count (0, 5) = 1 ∧
      (triggerOneShot ⟨[⟨0, true⟩, ⟨1, false⟩], []⟩ 5).1.requestList = [] ∧
      0 ∈ (triggerOneShot ⟨[⟨0, true⟩, ⟨1, false⟩], []⟩ 5).1.pool ∧
      (triggerOneShot (triggerOneShot ⟨[⟨0, true⟩, ⟨1, false⟩], []⟩ 5).1 6).2 = []) := by
  constructor
  · exact ⟨by decide, by decide⟩
  · exact C5_one_shot_trigger ⟨[⟨0, true⟩, ⟨1, false⟩], []⟩ 5 6 ⟨0, true⟩
      (by decide) (by decide)

end events
